import Mathlib

/-!
Verification development for the greenlight rune-authorization engine and the
python-binding credential layer.

The definitions below are a shallow embedding of:
  * `libs/gl-client/src/runes.rs` (RuneFactory, DefRules, Context), and
  * `libs/gl-client-py/src/credentials.rs` (UnifiedCredentials, Credentials).

The external `runeauth` crate (Condition, Alternative, Restriction, Rune,
ConditionChecker) and the `gl_client::credentials` module (Nobody, Device) are
not part of the analyzed sources; their behaviour is modelled from the
specification and marked as such on each definition.
-/

namespace Greenlight

/-- Modelled from the spec: the `RuneError` type of the external `runeauth`
crate.  The spec distinguishes validation errors (malformed construction),
authorization failures (an expected negative check result) and unknown/clock
errors; the source in `runes.rs` constructs `RuneError::Unknown` directly. -/
inductive RuneError where
  | Unknown (msg : String)
  | ValueError (msg : String)
  | Unauthorized (msg : String)
  deriving DecidableEq

/-- Modelled from the spec: the comparison operators of the restriction
algebra that are exercised by this repository (equality, inequality,
begins-with, ends-with, missing and its complement).  The spec requires at
least `Equal`, `Missing` and `BeginsWith`; the regex and numeric operators it
also lists are never used by the analyzed sources and are omitted. -/
inductive Condition where
  | Equal
  | NotEqual
  | BeginsWith
  | EndsWith
  | Missing
  | Present
  deriving DecidableEq

/-- Modelled from the spec: one atomic test
`{field, condition, value, case_insensitive}` of the restriction algebra. -/
structure Alternative where
  field : String
  cond : Condition
  value : String
  case_insensitive : Bool
  deriving DecidableEq

/-- Modelled from the spec: `Alternative::new(field, cond, value, ci)`.  The
spec's validation failure concerns unsupported condition/value combinations,
none of which are reachable from the fields and conditions this repository
uses, so construction is total here. -/
def Alternative.new (field : String) (cond : Condition) (value : String)
    (ci : Bool) : Alternative :=
  ⟨field, cond, value, ci⟩

/-- Modelled from the spec: accessor `Alternative::get_field`. -/
def Alternative.get_field (a : Alternative) : String :=
  a.field

/-- Modelled from the spec: a `Restriction` is an ordered sequence of
`Alternative`s, evaluated as a logical OR. -/
structure Restriction where
  alternatives : List Alternative
  deriving DecidableEq

/-- Modelled from the spec: `Restriction::new` fails with a validation error
when given zero alternatives (a restriction must contain at least one
alternative) and otherwise wraps the list. -/
def Restriction.new (alts : List Alternative) : Except RuneError Restriction :=
  if alts.isEmpty then
    .error (.ValueError "a restriction must have at least one alternative")
  else
    .ok ⟨alts⟩

/-- Modelled from the spec: a `Rune` is an authentication code (opaque bytes)
together with an ordered, append-only sequence of restrictions.  The optional
version/id metadata plays no role in the analyzed behaviour and is omitted. -/
structure Rune where
  authcode : List Nat
  restrictions : List Restriction
  deriving DecidableEq

/-- Modelled from the spec: `Rune::add_restriction` appends the restriction in
place; it never removes or reorders existing restrictions. -/
def Rune.add_restriction (r : Rune) (res : Restriction) : Rune :=
  { r with restrictions := r.restrictions ++ [res] }

/- ## The source: `libs/gl-client/src/runes.rs` -/

/-- Predefined rule sets (`DefRules` in `runes.rs`): `ReadOnly`, `Pay` and the
disjunctive composite `Add`. -/
inductive DefRules where
  | ReadOnly
  | Pay
  | Add (rules : List DefRules)

/-- Shorthand `alternative(field, cond, value)` from `runes.rs`: builds an
`Alternative` with `case_insensitive = false`. -/
def alternative (field : String) (cond : Condition) (value : String) :
    Alternative :=
  Alternative.new field cond value false

mutual

/-- `DefRules::generate` from `runes.rs`.  `ReadOnly` yields the single
restriction `method^Get|method^List`, `Pay` yields `method=pay` (in both arms
`Restriction::new` is applied to a concrete non-empty list, so its `unwrap`
succeeds and the resulting restriction is written directly), and `Add` flattens
the alternatives of all sub-rules' restrictions into one restriction built by
`Restriction::new`. -/
def DefRules.generate : DefRules → Except RuneError (List Restriction)
  | .ReadOnly =>
    .ok [⟨[alternative "method" .BeginsWith "Get",
           alternative "method" .BeginsWith "List"]⟩]
  | .Pay =>
    .ok [⟨[alternative "method" .Equal "pay"]⟩]
  | .Add rules =>
    match DefRules.generateAlts rules with
    | .error e => .error e
    | .ok alt_set =>
      match Restriction.new alt_set with
      | .error e => .error e
      | .ok r => .ok [r]

/-- The `try_fold` inside the `Add` arm of `DefRules::generate`: concatenates,
in rule order, the alternatives of every restriction generated by every rule,
short-circuiting on the first generation error. -/
def DefRules.generateAlts : List DefRules → Except RuneError (List Alternative)
  | [] => .ok []
  | rule :: rest =>
    match rule.generate with
    | .error e => .error e
    | .ok rs =>
      match DefRules.generateAlts rest with
      | .error e => .error e
      | .ok acc => .ok ((rs.map Restriction.alternatives).flatten ++ acc)

end

/-- The `try_fold` in `RuneFactory::carve`: generates the restrictions of
every policy in order, short-circuiting on the first error. -/
def carveRestrictions : List DefRules → Except RuneError (List Restriction)
  | [] => .ok []
  | res :: rest =>
    match res.generate with
    | .error e => .error e
    | .ok r =>
      match carveRestrictions rest with
      | .error e => .error e
      | .ok acc => .ok (r ++ acc)

/-- Lowercasing of a string's characters, used for the configurable
case-insensitive comparison of the restriction algebra. -/
def lowerChars (s : String) : List Char :=
  s.data.map Char.toLower

/-- Modelled from the spec: the pass/fail evaluation of one `Alternative`
against a resolved field value (`ConditionChecker` in `runeauth`).
Case sensitivity is configurable per alternative; `Missing` passes exactly
when the resolved value is the empty-string sentinel. -/
def condPasses (alt : Alternative) (value : String) : Bool :=
  let v := if alt.case_insensitive then lowerChars value else value.data
  let t := if alt.case_insensitive then lowerChars alt.value else alt.value.data
  match alt.cond with
  | .Equal => v == t
  | .NotEqual => !(v == t)
  | .BeginsWith => t.isPrefixOf v
  | .EndsWith => t.isSuffixOf v
  | .Missing => v == []
  | .Present => !(v == [])

/-- Modelled from the spec: `ConditionChecker { value }` of `runeauth`,
holding the concrete string resolved for the alternative's field. -/
structure ConditionChecker where
  value : String

/-- Modelled from the spec: `ConditionChecker::check_alternative` returns
`Ok(())` when the alternative passes against the held value and an
authorization-failure error otherwise. -/
def ConditionChecker.check_alternative (c : ConditionChecker)
    (alt : Alternative) : Except RuneError Unit :=
  if condPasses alt c.value then .ok () else
    .error (.Unauthorized "alternative not satisfied")

/-- The `Context` struct from `runes.rs`: the facts of one call.  The
`SystemTime` timestamp is modelled as whole seconds relative to the UNIX
epoch; a negative value is a timestamp that predates the epoch. -/
structure Context where
  method : String
  pubkey : String
  unique_id : String
  time : Int
  deriving DecidableEq

/-- The field-resolution step of `Context::check_alternative` in `runes.rs`
(the `let value = match alt.get_field().as_str() ...` block): the empty field
name resolves to `unique_id`, `"method"` to `method`, `"pubkey"` to `pubkey`,
`"time"` to the decimal string of whole seconds since the UNIX epoch (an error
when the timestamp predates the epoch, mirroring
`duration_since(UNIX_EPOCH).map_err(... RuneError::Unknown ...)`), and every
other field name to the empty string. -/
def Context.resolve (ctx : Context) (alt : Alternative) :
    Except RuneError String :=
  match alt.get_field with
  | "" => .ok ctx.unique_id
  | "method" => .ok ctx.method
  | "pubkey" => .ok ctx.pubkey
  | "time" =>
    if ctx.time < 0 then
      .error (.Unknown "Can not extract seconds from timestamp")
    else
      .ok (toString ctx.time.toNat)
  | _ => .ok ""

/-- `Context::check_alternative` from `runes.rs` (the `Check` impl): resolve
the alternative's field to a concrete value, then delegate to
`ConditionChecker { value }.check_alternative(alt)`. -/
def Context.check_alternative (ctx : Context) (alt : Alternative) :
    Except RuneError Unit :=
  match ctx.resolve alt with
  | .error e => .error e
  | .ok value => ConditionChecker.check_alternative ⟨value⟩ alt

/-- `Ok`-test for an except-valued check. -/
def okB {α : Type} (e : Except RuneError α) : Bool :=
  match e with
  | .ok _ => true
  | .error _ => false

/-- Modelled from the spec: evaluation of one `Restriction` against a context
— a logical OR, passing when any contained alternative passes, and an
authorization failure otherwise. -/
def checkRestriction (ctx : Context) (res : Restriction) :
    Except RuneError Unit :=
  if res.alternatives.any (fun a => okB (ctx.check_alternative a)) then
    .ok ()
  else
    .error (.Unauthorized "restriction not met")

/-- Modelled from the spec: conjunction over a list of restrictions, returning
the first failing restriction as an error. -/
def checkAll (ctx : Context) : List Restriction → Except RuneError Unit
  | [] => .ok ()
  | res :: rest =>
    match checkRestriction ctx res with
    | .error e => .error e
    | .ok _ => checkAll ctx rest

/-- Modelled from the spec: `Rune::are_restrictions_met` evaluates every
restriction the rune carries (logical AND) against the context. -/
def Rune.are_restrictions_met (r : Rune) (ctx : Context) :
    Except RuneError Unit :=
  checkAll ctx r.restrictions

/- ## Rune encoding (modelled from the spec)

The URL-safe base64 codec of `runeauth` is external to the analyzed sources.
The spec pins it down by the exact round-trip law
(`from_base64(to_base64(r))` re-decodes to the same rune) and by rejection of
malformed strings.  We realize it with a self-delimiting encoding over the
two-character alphabet `'0'`/`'1'` (a subset of the URL-safe base64 alphabet):
naturals in unary, lists length-prefixed, characters by code point. -/

/-- Modelled from the spec: a natural in self-delimiting unary form. -/
def encNat (n : Nat) : List Char :=
  List.replicate n '1' ++ ['0']

/-- Decoder for `encNat`; returns the value and the remaining input. -/
def decNat : List Char → Option (Nat × List Char)
  | '0' :: rest => some (0, rest)
  | '1' :: rest =>
    match decNat rest with
    | some (n, r) => some (n + 1, r)
    | none => none
  | _ => none

/-- Modelled from the spec: a character by its code point. -/
def encChar (c : Char) : List Char :=
  encNat c.toNat

/-- Decoder for `encChar`. -/
def decChar (cs : List Char) : Option (Char × List Char) :=
  match decNat cs with
  | some (n, r) => some (Char.ofNat n, r)
  | none => none

/-- Modelled from the spec: a length-prefixed list of encoded elements. -/
def encList {α : Type} (g : α → List Char) (xs : List α) : List Char :=
  encNat xs.length ++ (xs.map g).flatten

/-- Decoder for exactly `n` elements. -/
def decCount {α : Type} (f : List Char → Option (α × List Char)) :
    Nat → List Char → Option (List α × List Char)
  | 0, cs => some ([], cs)
  | n + 1, cs =>
    match f cs with
    | none => none
    | some (a, r) =>
      match decCount f n r with
      | none => none
      | some (as, r2) => some (a :: as, r2)

/-- Decoder for `encList`. -/
def decList {α : Type} (f : List Char → Option (α × List Char))
    (cs : List Char) : Option (List α × List Char) :=
  match decNat cs with
  | none => none
  | some (n, r) => decCount f n r

/-- Modelled from the spec: a string as the encoded list of its characters. -/
def encString (s : String) : List Char :=
  encList encChar s.data

/-- Decoder for `encString`. -/
def decString (cs : List Char) : Option (String × List Char) :=
  match decList decChar cs with
  | none => none
  | some (l, r) => some (⟨l⟩, r)

/-- Modelled from the spec: a boolean as one tag character. -/
def encBool (b : Bool) : List Char :=
  encNat (if b then 1 else 0)

/-- Decoder for `encBool`. -/
def decBool (cs : List Char) : Option (Bool × List Char) :=
  match decNat cs with
  | some (0, r) => some (false, r)
  | some (1, r) => some (true, r)
  | _ => none

/-- Numeric tag of a condition operator. -/
def condTag : Condition → Nat
  | .Equal => 0
  | .NotEqual => 1
  | .BeginsWith => 2
  | .EndsWith => 3
  | .Missing => 4
  | .Present => 5

/-- Modelled from the spec: a condition operator by its tag. -/
def encCond (c : Condition) : List Char :=
  encNat (condTag c)

/-- Decoder for `encCond`. -/
def decCond (cs : List Char) : Option (Condition × List Char) :=
  match decNat cs with
  | some (0, r) => some (.Equal, r)
  | some (1, r) => some (.NotEqual, r)
  | some (2, r) => some (.BeginsWith, r)
  | some (3, r) => some (.EndsWith, r)
  | some (4, r) => some (.Missing, r)
  | some (5, r) => some (.Present, r)
  | _ => none

/-- Modelled from the spec: an alternative as field, condition symbol, value
and case flag in sequence. -/
def encAlternative (a : Alternative) : List Char :=
  encString a.field ++ (encCond a.cond ++ (encString a.value ++
    encBool a.case_insensitive))

/-- Decoder for `encAlternative`. -/
def decAlternative (cs : List Char) : Option (Alternative × List Char) :=
  match decString cs with
  | none => none
  | some (f, cs1) =>
    match decCond cs1 with
    | none => none
    | some (c, cs2) =>
      match decString cs2 with
      | none => none
      | some (v, cs3) =>
        match decBool cs3 with
        | none => none
        | some (b, cs4) => some (⟨f, c, v, b⟩, cs4)

/-- Modelled from the spec: a restriction as its list of alternatives. -/
def encRestriction (res : Restriction) : List Char :=
  encList encAlternative res.alternatives

/-- Decoder for `encRestriction`. -/
def decRestriction (cs : List Char) : Option (Restriction × List Char) :=
  match decList decAlternative cs with
  | none => none
  | some (l, r) => some (⟨l⟩, r)

/-- Modelled from the spec: a rune as its authentication code followed by its
restriction sequence. -/
def encRune (r : Rune) : List Char :=
  encList encNat r.authcode ++ encList encRestriction r.restrictions

/-- Decoder for `encRune`. -/
def decRune (cs : List Char) : Option (Rune × List Char) :=
  match decList decNat cs with
  | none => none
  | some (ac, cs1) =>
    match decList decRestriction cs1 with
    | none => none
    | some (rs, cs2) => some (⟨ac, rs⟩, cs2)

/-- Modelled from the spec: `Rune::to_base64`, the canonical string encoding
of a rune. -/
def Rune.to_base64 (r : Rune) : String :=
  ⟨encRune r⟩

/-- Modelled from the spec: `Rune::from_base64` decodes a canonical encoding
and rejects malformed strings (including trailing garbage). -/
def from_base64 (s : String) : Except RuneError Rune :=
  match decRune s.data with
  | some (r, []) => .ok r
  | _ => .error (.Unknown "malformed rune encoding")

/-- `RuneFactory::carve` from `runes.rs`: generate the restrictions of every
policy (first error wins), clone the origin, append every generated
restriction in order (`add_restriction` applies changes in place on the
clone) and return the new base64 encoding.  The generic `T: Restrictor` is
instantiated at `DefRules`, the sole `Restrictor` implementation in the
analyzed sources. -/
def RuneFactory.carve (origin : Rune) (append : List DefRules) :
    Except RuneError String :=
  match carveRestrictions append with
  | .error e => .error e
  | .ok restrictions =>
    .ok ((restrictions.foldl Rune.add_restriction origin).to_base64)

/-- State-passing embedding of `RuneFactory::carve`: the Rust function
borrows `origin` immutably and mutates only the clone `originc`; the second
component makes the value of the borrowed `origin` at return time explicit. -/
def RuneFactory.carveSt (origin : Rune) (append : List DefRules) :
    Except RuneError String × Rune :=
  match carveRestrictions append with
  | .error e => (.error e, origin)
  | .ok restrictions =>
    let originc := origin
    let originc := restrictions.foldl Rune.add_restriction originc
    (.ok originc.to_base64, origin)

/- ## The source: `libs/gl-client-py/src/credentials.rs` -/

/-- Modelled from the spec: `gl_client::credentials::Error`; the claims only
distinguish the identity-kind variant. -/
inductive CredError where
  | IsIdentityError (msg : String)
  | OtherError (msg : String)
  deriving DecidableEq

/-- `ErrorWrapper` from `credentials.rs`: wraps a credentials error for the
python boundary (the `?` conversions in the source go through `From`). -/
inductive ErrorWrapper where
  | CredentialsError (e : CredError)
  deriving DecidableEq

/-- Modelled from the spec: `gl_client::credentials::Nobody` — unauthenticated
identity holding only TLS material (certificate, key, trust anchor). -/
structure Nobody where
  cert : List Nat
  key : List Nat
  ca : List Nat
  deriving DecidableEq

/-- Modelled from the spec: `gl_client::credentials::Device` — authenticated
identity holding TLS material, a rune and a node-identifier source. -/
structure Device where
  cert : List Nat
  key : List Nat
  ca : List Nat
  rune : String
  nodeId : List Nat
  deriving DecidableEq

/-- Modelled from the spec: `Device::node_id` answers the node identifier of
an authenticated identity. -/
def Device.node_id (d : Device) : Except CredError (List Nat) :=
  .ok d.nodeId

/-- Modelled from the spec: `Device::to_bytes` serializes the device identity
into an opaque byte blob. -/
def Device.to_bytes (d : Device) : List Nat :=
  (encList encNat d.cert ++ (encList encNat d.key ++ (encList encNat d.ca ++
    (encString d.rune ++ encList encNat d.nodeId)))).map Char.toNat

/-- `UnifiedCredentials` from `credentials.rs`: the two-variant identity,
instantiated (as in `PyCredentials`) at the concrete `Nobody` and `Device`
collaborators. -/
inductive UnifiedCredentials where
  | Nobody (n : Nobody)
  | Device (d : Device)
  deriving DecidableEq

/-- Variant test: is the identity the `Nobody` variant? -/
def UnifiedCredentials.isNobody : UnifiedCredentials → Bool
  | .Nobody _ => true
  | .Device _ => false

/-- Variant test: is the identity the `Device` variant? -/
def UnifiedCredentials.isDevice : UnifiedCredentials → Bool
  | .Nobody _ => false
  | .Device _ => true

/-- `UnifiedCredentials::ensure_nobody` from `credentials.rs`: `Ok(())` on the
`Nobody` variant, an `IsIdentityError` (wrapped by `?` into `ErrorWrapper`)
otherwise. -/
def UnifiedCredentials.ensure_nobody (c : UnifiedCredentials) :
    Except ErrorWrapper Unit :=
  match c with
  | .Nobody _ => .ok ()
  | _ => .error (.CredentialsError
      (.IsIdentityError "credentials are not of type nobody"))

/-- `UnifiedCredentials::ensure_device` from `credentials.rs`: `Ok(())` on the
`Device` variant, an `IsIdentityError` (wrapped by `?` into `ErrorWrapper`)
otherwise. -/
def UnifiedCredentials.ensure_device (c : UnifiedCredentials) :
    Except ErrorWrapper Unit :=
  match c with
  | .Device _ => .ok ()
  | _ => .error (.CredentialsError
      (.IsIdentityError "credentials are not of type device"))

/-- Outcome of a Rust computation that may `panic!` instead of returning. -/
inductive PanicOr (α : Type) where
  | panicked (msg : String)
  | returned (v : α)
  deriving DecidableEq

/-- The `NodeIdProvider` impl for `UnifiedCredentials` in `credentials.rs`:
on the `Nobody` variant it `panic!`s ("can not provide node_id from nobody
credentials! something really bad happened."); on `Device` it delegates. -/
def UnifiedCredentials.node_id (c : UnifiedCredentials) :
    PanicOr (Except CredError (List Nat)) :=
  match c with
  | .Nobody _ => .panicked
      "can not provide node_id from nobody credentials! something really bad happened."
  | .Device d => .returned d.node_id

/-- The `RuneProvider` impl for `UnifiedCredentials` in `credentials.rs`:
on the `Nobody` variant it `panic!`s; on `Device` it delegates. -/
def UnifiedCredentials.rune (c : UnifiedCredentials) : PanicOr String :=
  match c with
  | .Nobody _ => .panicked
      "can not provide rune from nobody credentials! something really bad happened."
  | .Device d => .returned d.rune

/-- The `#[pyclass] Credentials` struct from `credentials.rs`. -/
structure Credentials where
  inner : UnifiedCredentials
  deriving DecidableEq

/-- `Credentials::new` from `credentials.rs`: nobody credentials built from
`Nobody::default()` (whose concrete TLS material is opaque here). -/
def Credentials.new : Credentials :=
  ⟨.Nobody ⟨[], [], []⟩⟩

/-- `Credentials::ensure_device` from `credentials.rs`: delegates to the
inner `UnifiedCredentials`. -/
def Credentials.ensure_device (c : Credentials) : Except ErrorWrapper Unit :=
  c.inner.ensure_device

/-- `Credentials::ensure_nobody` from `credentials.rs`: delegates to the
inner `UnifiedCredentials`. -/
def Credentials.ensure_nobody (c : Credentials) : Except ErrorWrapper Unit :=
  c.inner.ensure_nobody

/-- `Credentials::node_id` from `credentials.rs`: `Ok(self.inner.node_id()?)`
— it delegates to the inner provider with no identity-kind guard, so a panic
of the provider propagates. -/
def Credentials.node_id (c : Credentials) :
    PanicOr (Except ErrorWrapper (List Nat)) :=
  match c.inner.node_id with
  | .panicked m => .panicked m
  | .returned (.ok v) => .returned (.ok v)
  | .returned (.error e) => .returned (.error (.CredentialsError e))

/-- `Credentials::to_bytes` from `credentials.rs`: an `IsIdentityError` on the
`Nobody` variant, the device byte blob otherwise. -/
def Credentials.to_bytes (c : Credentials) : Except ErrorWrapper (List Nat) :=
  match c.inner with
  | .Nobody _ => .error (.CredentialsError
      (.IsIdentityError "can not convert nobody into bytes"))
  | .Device d => .ok d.to_bytes

/-- Modelled from the spec: the scheduler collaborator handle of the python
binding, in one of its two operating modes. -/
inductive UnifiedScheduler where
  | Unauthenticated (handle : Nat)
  | Authenticated (handle : Nat)
  deriving DecidableEq

/-- Modelled from the spec: the `#[pyclass] Scheduler` wrapper. -/
structure Scheduler where
  inner : UnifiedScheduler
  deriving DecidableEq

/-- Modelled from the spec: the opaque signer collaborator handle. -/
structure Signer where
  handle : Nat
  deriving DecidableEq

/-- One observable interaction with the scheduler/signer collaborators during
an upgrade (the `exec(creds.clone().upgrade(..., &signer.inner))` round
trip); the flag records which scheduler mode was used. -/
inductive CollabCall where
  | upgradeRoundTrip (viaAuthenticated : Bool)
  deriving DecidableEq

/-- `Credentials::upgrade` from `credentials.rs`: an `IsIdentityError` on the
`Nobody` variant; on `Device` one collaborator round trip through the
scheduler in its current mode.  The network round trip
`Device::upgrade(scheduler, signer)` is external; it is modelled from the
spec as the oracle `deviceUpgrade`, and the second component is the trace of
collaborator interactions the call performs. -/
def Credentials.upgrade (c : Credentials) (scheduler : Scheduler)
    (signer : Signer)
    (deviceUpgrade : Device → UnifiedScheduler → Signer → Except CredError Device) :
    Except ErrorWrapper Credentials × List CollabCall :=
  match c.inner with
  | .Nobody _ =>
    (.error (.CredentialsError
      (.IsIdentityError "can not upgrade nobody credentials")), [])
  | .Device creds =>
    match scheduler.inner with
    | .Unauthenticated u =>
      (match deviceUpgrade creds (.Unauthenticated u) signer with
       | .ok d => .ok ⟨.Device d⟩
       | .error e => .error (.CredentialsError e),
       [.upgradeRoundTrip false])
    | .Authenticated a =>
      (match deviceUpgrade creds (.Authenticated a) signer with
       | .ok d => .ok ⟨.Device d⟩
       | .error e => .error (.CredentialsError e),
       [.upgradeRoundTrip true])

/- ## Helper lemmas -/

theorem decNat_encNat (n : Nat) (rest : List Char) :
    decNat (encNat n ++ rest) = some (n, rest) := by
  induction n with
  | zero => rfl
  | succ n ih =>
    simp only [encNat, List.replicate_succ, List.cons_append] at *
    simp only [decNat, ih]

theorem decChar_encChar (c : Char) (rest : List Char) :
    decChar (encChar c ++ rest) = some (c, rest) := by
  simp only [decChar, encChar, decNat_encNat, Char.ofNat_toNat]

theorem decCount_enc {α : Type} (f : List Char → Option (α × List Char))
    (g : α → List Char)
    (hf : ∀ a rest, f (g a ++ rest) = some (a, rest)) :
    ∀ (xs : List α) (rest : List Char),
      decCount f xs.length ((xs.map g).flatten ++ rest) = some (xs, rest) := by
  intro xs
  induction xs with
  | nil => intro rest; rfl
  | cons x xs ih =>
    intro rest
    simp only [List.map_cons, List.flatten_cons, List.length_cons,
      List.append_assoc]
    simp only [decCount, hf, ih]

theorem decList_encList {α : Type} (f : List Char → Option (α × List Char))
    (g : α → List Char)
    (hf : ∀ a rest, f (g a ++ rest) = some (a, rest))
    (xs : List α) (rest : List Char) :
    decList f (encList g xs ++ rest) = some (xs, rest) := by
  simp only [decList, encList, List.append_assoc, decNat_encNat,
    decCount_enc f g hf]

theorem decString_encString (s : String) (rest : List Char) :
    decString (encString s ++ rest) = some (s, rest) := by
  simp only [decString, encString, decList_encList decChar encChar
    decChar_encChar]

theorem decBool_encBool (b : Bool) (rest : List Char) :
    decBool (encBool b ++ rest) = some (b, rest) := by
  cases b <;> simp [decBool, encBool, decNat_encNat]

theorem decCond_encCond (c : Condition) (rest : List Char) :
    decCond (encCond c ++ rest) = some (c, rest) := by
  cases c <;> simp only [decCond, encCond, condTag, decNat_encNat]

theorem decAlternative_encAlternative (a : Alternative) (rest : List Char) :
    decAlternative (encAlternative a ++ rest) = some (a, rest) := by
  obtain ⟨f, c, v, b⟩ := a
  simp only [decAlternative, encAlternative, List.append_assoc,
    decString_encString, decCond_encCond, decBool_encBool]

theorem decRestriction_encRestriction (res : Restriction) (rest : List Char) :
    decRestriction (encRestriction res ++ rest) = some (res, rest) := by
  obtain ⟨alts⟩ := res
  simp only [decRestriction, encRestriction, decList_encList decAlternative
    encAlternative decAlternative_encAlternative]

theorem decRune_encRune (r : Rune) (rest : List Char) :
    decRune (encRune r ++ rest) = some (r, rest) := by
  obtain ⟨ac, rs⟩ := r
  simp only [decRune, encRune, List.append_assoc,
    decList_encList decNat encNat decNat_encNat,
    decList_encList decRestriction encRestriction decRestriction_encRestriction]

/-- The codec round trip the spec demands: decoding a canonical encoding
recovers the rune exactly. -/
theorem from_base64_to_base64 (r : Rune) :
    from_base64 r.to_base64 = .ok r := by
  have h := decRune_encRune r []
  simp only [List.append_nil] at h
  simp only [from_base64, Rune.to_base64, h]

theorem foldl_add_restriction (gen : List Restriction) (r : Rune) :
    (gen.foldl Rune.add_restriction r).restrictions
      = r.restrictions ++ gen ∧
    (gen.foldl Rune.add_restriction r).authcode = r.authcode := by
  induction gen generalizing r with
  | nil => simp
  | cons res rest ih =>
    simp only [List.foldl_cons]
    have h := ih (r.add_restriction res)
    simpa [Rune.add_restriction, List.append_assoc] using h

theorem checkAll_append_ok (ctx : Context) (xs ys : List Restriction)
    (h : checkAll ctx (xs ++ ys) = .ok ()) : checkAll ctx xs = .ok () := by
  induction xs with
  | nil => rfl
  | cons res rest ih =>
    simp only [List.cons_append, checkAll] at h ⊢
    cases hres : checkRestriction ctx res with
    | error e => rw [hres] at h; exact absurd h (by simp)
    | ok u => rw [hres] at h; exact ih h

theorem generateAlts_mapM (rs : List DefRules) (gens : List (List Restriction))
    (h : rs.mapM DefRules.generate = .ok gens) :
    DefRules.generateAlts rs =
      .ok ((gens.map
        (fun g => (g.map Restriction.alternatives).flatten)).flatten) := by
  induction rs generalizing gens with
  | nil =>
    rw [List.mapM_nil] at h
    obtain rfl : ([] : List (List Restriction)) = gens := by
      simpa [pure, Except.pure] using h
    rfl
  | cons r rest ih =>
    rw [List.mapM_cons] at h
    cases hr : r.generate with
    | error e =>
      rw [hr] at h
      simp [bind, Except.bind] at h
    | ok g =>
      rw [hr] at h
      cases hm : rest.mapM DefRules.generate with
      | error e =>
        rw [hm] at h
        simp [bind, Except.bind] at h
      | ok gs =>
        rw [hm] at h
        obtain rfl : g :: gs = gens := by
          simpa [bind, Except.bind, pure, Except.pure] using h
        simp only [DefRules.generateAlts, hr, ih gs hm, List.map_cons,
          List.flatten_cons]

mutual

theorem generate_case_sensitive (d : DefRules) :
    ∀ rs, d.generate = .ok rs →
      ∀ r ∈ rs, ∀ a ∈ r.alternatives, a.case_insensitive = false := by
  cases d with
  | ReadOnly =>
    intro rs h r hr a ha
    simp only [DefRules.generate, Except.ok.injEq] at h
    subst h
    simp only [List.mem_singleton] at hr
    subst hr
    simp only [List.mem_cons, List.not_mem_nil, or_false] at ha
    rcases ha with rfl | rfl <;> rfl
  | Pay =>
    intro rs h r hr a ha
    simp only [DefRules.generate, Except.ok.injEq] at h
    subst h
    simp only [List.mem_singleton] at hr
    subst hr
    simp only [List.mem_cons, List.not_mem_nil, or_false] at ha
    subst ha
    rfl
  | Add rules =>
    intro rs h r hr a ha
    simp only [DefRules.generate] at h
    cases hga : DefRules.generateAlts rules with
    | error e => rw [hga] at h; exact absurd h (by simp)
    | ok alts =>
      rw [hga] at h
      by_cases he : alts.isEmpty
      · simp only [Restriction.new] at h
        rw [if_pos he] at h
        exact absurd h (by simp)
      · simp only [Restriction.new] at h
        rw [if_neg he] at h
        simp only [Except.ok.injEq] at h
        subst h
        simp only [List.mem_singleton] at hr
        subst hr
        exact generateAlts_case_sensitive rules alts hga a ha

theorem generateAlts_case_sensitive (ds : List DefRules) :
    ∀ alts, DefRules.generateAlts ds = .ok alts →
      ∀ a ∈ alts, a.case_insensitive = false := by
  cases ds with
  | nil =>
    intro alts h a ha
    simp only [DefRules.generateAlts, Except.ok.injEq] at h
    subst h
    simp at ha
  | cons rule rest =>
    intro alts h a ha
    simp only [DefRules.generateAlts] at h
    cases hr : rule.generate with
    | error e => rw [hr] at h; exact absurd h (by simp)
    | ok rs =>
      rw [hr] at h
      cases hm : DefRules.generateAlts rest with
      | error e => rw [hm] at h; exact absurd h (by simp)
      | ok acc =>
        rw [hm] at h
        simp only [Except.ok.injEq] at h
        subst h
        rcases List.mem_append.mp ha with hl | hrt
        · obtain ⟨l, hl1, hl2⟩ := List.mem_flatten.mp hl
          obtain ⟨r, hr1, rfl⟩ := List.mem_map.mp hl1
          exact generate_case_sensitive rule rs hr r hr1 a hl2
        · exact generateAlts_case_sensitive rest acc hm a hrt

end

/- ## Claim theorems -/

/-- C4: the public `Credentials::node_id` operation, invoked on a
`Nobody`-variant identity, does not return the typed identity-kind error the
specification demands: it reaches the unguarded `NodeIdProvider` impl and
panics.  This theorem evaluates the code at the failing input
(`Credentials::new()`, which constructs a `Nobody` identity). -/
theorem spec_c4_node_id_nobody_panics :
    Credentials.node_id Credentials.new = .panicked
      "can not provide node_id from nobody credentials! something really bad happened." :=
  rfl

/-- C5: `RuneFactory::carve` never mutates the origin rune: in the
state-passing embedding the borrowed origin is returned unchanged (hence with
identical restrictions and identical encoding), and the computed result is
exactly that of `carve`. -/
theorem spec_c5_carve_preserves_origin (r : Rune) (P : List DefRules) :
    (RuneFactory.carveSt r P).2 = r
    ∧ (RuneFactory.carveSt r P).2.restrictions = r.restrictions
    ∧ (RuneFactory.carveSt r P).2.to_base64 = r.to_base64
    ∧ (RuneFactory.carveSt r P).1 = RuneFactory.carve r P := by
  cases h : carveRestrictions P <;>
    simp [RuneFactory.carveSt, RuneFactory.carve, h]

/-- C8: on a `Nobody`-variant identity both Device-only operations `upgrade`
and `to_bytes` return a typed identity-kind error, and the failing `upgrade`
performs no collaborator interaction (its scheduler/signer trace is empty),
for every scheduler handle, signer handle and upgrade round-trip oracle. -/
theorem spec_c8_nobody_upgrade_to_bytes (n : Nobody) (sch : Scheduler)
    (sg : Signer)
    (f : Device → UnifiedScheduler → Signer → Except CredError Device) :
    (Credentials.upgrade ⟨.Nobody n⟩ sch sg f).1 = .error (.CredentialsError
        (.IsIdentityError "can not upgrade nobody credentials"))
    ∧ (Credentials.upgrade ⟨.Nobody n⟩ sch sg f).2 = []
    ∧ Credentials.to_bytes ⟨.Nobody n⟩ = .error (.CredentialsError
        (.IsIdentityError "can not convert nobody into bytes")) :=
  ⟨rfl, rfl, rfl⟩

/-- C9: `ensure_device` returns the typed identity-kind error exactly on the
`Nobody` variant (and `Ok` otherwise), and `ensure_nobody` returns the typed
identity-kind error exactly on the `Device` variant (and `Ok` otherwise). -/
theorem spec_c9_ensure_guards (c : Credentials) :
    (c.ensure_device = .error (.CredentialsError
        (.IsIdentityError "credentials are not of type device"))
      ↔ c.inner.isNobody = true)
    ∧ (c.ensure_device = .ok () ↔ c.inner.isNobody = false)
    ∧ (c.ensure_nobody = .error (.CredentialsError
        (.IsIdentityError "credentials are not of type nobody"))
      ↔ c.inner.isDevice = true)
    ∧ (c.ensure_nobody = .ok () ↔ c.inner.isDevice = false) := by
  obtain ⟨inner⟩ := c
  cases inner <;>
    simp [Credentials.ensure_device, Credentials.ensure_nobody,
      UnifiedCredentials.ensure_device, UnifiedCredentials.ensure_nobody,
      UnifiedCredentials.isNobody, UnifiedCredentials.isDevice]

/-- C6: `DefRules::ReadOnly.generate()` yields exactly one restriction with
exactly the two alternatives `method^Get` and `method^List`; a context with
method `"ListFunds"` or `"GetInfo"` satisfies that restriction and a context
with method `"pay"` does not, for every pubkey, unique id and timestamp. -/
theorem spec_c6_readonly (pk uid : String) (t : Int) :
    DefRules.generate .ReadOnly = .ok
      [⟨[alternative "method" .BeginsWith "Get",
         alternative "method" .BeginsWith "List"]⟩]
    ∧ checkRestriction ⟨"ListFunds", pk, uid, t⟩
        ⟨[alternative "method" .BeginsWith "Get",
          alternative "method" .BeginsWith "List"]⟩ = .ok ()
    ∧ checkRestriction ⟨"GetInfo", pk, uid, t⟩
        ⟨[alternative "method" .BeginsWith "Get",
          alternative "method" .BeginsWith "List"]⟩ = .ok ()
    ∧ okB (checkRestriction ⟨"pay", pk, uid, t⟩
        ⟨[alternative "method" .BeginsWith "Get",
          alternative "method" .BeginsWith "List"]⟩) = false :=
  ⟨rfl, rfl, rfl, rfl⟩

/-- C7: `DefRules::Pay.generate()` yields exactly one restriction with the
single alternative `method=pay`; a context with method `"pay"` satisfies it
and a context with any other method does not, for every pubkey, unique id and
timestamp. -/
theorem spec_c7_pay (m pk uid : String) (t : Int) (hm : m ≠ "pay") :
    DefRules.generate .Pay = .ok [⟨[alternative "method" .Equal "pay"]⟩]
    ∧ checkRestriction ⟨"pay", pk, uid, t⟩
        ⟨[alternative "method" .Equal "pay"]⟩ = .ok ()
    ∧ okB (checkRestriction ⟨m, pk, uid, t⟩
        ⟨[alternative "method" .Equal "pay"]⟩) = false := by
  refine ⟨rfl, rfl, ?_⟩
  obtain ⟨md⟩ := m
  have h : (md == "pay".data) = false := by
    apply beq_eq_false_iff_ne.mpr
    intro hd
    exact hm (by rw [hd])
  simp [checkRestriction, Context.check_alternative, Context.resolve,
    Alternative.get_field, alternative, Alternative.new,
    ConditionChecker.check_alternative, condPasses, okB, h]

/-- C7 witness: the theorem applied at method `"GetInfo"`. -/
theorem spec_c7_pay_witness :
    (("GetInfo" : String) ≠ "pay")
    ∧ (DefRules.generate .Pay = .ok [⟨[alternative "method" .Equal "pay"]⟩]
       ∧ checkRestriction ⟨"pay", "", "", 0⟩
           ⟨[alternative "method" .Equal "pay"]⟩ = .ok ()
       ∧ okB (checkRestriction ⟨"GetInfo", "", "", 0⟩
           ⟨[alternative "method" .Equal "pay"]⟩) = false) :=
  ⟨by decide, spec_c7_pay "GetInfo" "" "" 0 (by decide)⟩

/-- C10: every alternative produced by any `DefRules` policy (ReadOnly, Pay,
and any nesting of Add) carries `case_insensitive = false`, so all built-in
policy matching is case-sensitive. -/
theorem spec_c10_all_case_sensitive (d : DefRules) (rs : List Restriction)
    (h : d.generate = .ok rs) :
    ∀ r ∈ rs, ∀ a ∈ r.alternatives, a.case_insensitive = false :=
  generate_case_sensitive d rs h

/-- C10 witness: the theorem applied to the nested policy
`Add [ReadOnly, Pay]`. -/
theorem spec_c10_witness :
    DefRules.generate (.Add [.ReadOnly, .Pay]) = .ok
      [⟨[alternative "method" .BeginsWith "Get",
         alternative "method" .BeginsWith "List",
         alternative "method" .Equal "pay"]⟩]
    ∧ ∀ r ∈ [(⟨[alternative "method" .BeginsWith "Get",
                alternative "method" .BeginsWith "List",
                alternative "method" .Equal "pay"]⟩ : Restriction)],
        ∀ a ∈ r.alternatives, a.case_insensitive = false :=
  ⟨rfl, spec_c10_all_case_sensitive (.Add [.ReadOnly, .Pay]) _ rfl⟩

/-- C3: the context's field resolver maps the empty field name to
`unique_id`, `"method"` to `method`, `"pubkey"` to `pubkey`, `"time"` to the
decimal string of whole seconds since the UNIX epoch (a typed clock error,
`RuneError::Unknown`, when the timestamp predates the epoch), and every other
field name to the empty string. -/
theorem spec_c3_field_resolution (ctx : Context) (alt : Alternative) :
    (alt.get_field = "" → ctx.resolve alt = .ok ctx.unique_id)
    ∧ (alt.get_field = "method" → ctx.resolve alt = .ok ctx.method)
    ∧ (alt.get_field = "pubkey" → ctx.resolve alt = .ok ctx.pubkey)
    ∧ (alt.get_field = "time" → 0 ≤ ctx.time →
        ctx.resolve alt = .ok (toString ctx.time.toNat))
    ∧ (alt.get_field = "time" → ctx.time < 0 →
        ∃ m, ctx.resolve alt = .error (.Unknown m))
    ∧ (alt.get_field ≠ "" → alt.get_field ≠ "method" →
        alt.get_field ≠ "pubkey" → alt.get_field ≠ "time" →
        ctx.resolve alt = .ok "") := by
  refine ⟨?_, ?_, ?_, ?_, ?_, ?_⟩
  · intro h
    rw [Context.resolve.eq_def, h]
    rfl
  · intro h
    rw [Context.resolve.eq_def, h]
    rfl
  · intro h
    rw [Context.resolve.eq_def, h]
    rfl
  · intro h ht
    rw [Context.resolve.eq_def, h]
    show (if ctx.time < 0 then _ else _) = _
    simp only [if_neg (not_lt.mpr ht)]
  · intro h ht
    rw [Context.resolve.eq_def, h]
    refine ⟨"Can not extract seconds from timestamp", ?_⟩
    show (if ctx.time < 0 then _ else _) = _
    rw [if_pos ht]
  · intro h1 h2 h3 h4
    rw [Context.resolve.eq_def]
    split
    · exact absurd (by assumption) h1
    · exact absurd (by assumption) h2
    · exact absurd (by assumption) h3
    · exact absurd (by assumption) h4
    · rfl

/-- C3 witness: resolution at a pre-epoch timestamp for field `"time"` and at
field `"method"`. -/
theorem spec_c3_witness :
    (Alternative.mk "time" .Equal "0" false).get_field = "time"
    ∧ ((-5 : Int) < 0)
    ∧ (∃ m, Context.resolve ⟨"m", "p", "u", -5⟩ ⟨"time", .Equal, "0", false⟩
        = .error (.Unknown m))
    ∧ Context.resolve ⟨"m", "p", "u", 7⟩ ⟨"method", .Equal, "0", false⟩
        = .ok "m" :=
  ⟨rfl, by decide,
   (spec_c3_field_resolution ⟨"m", "p", "u", -5⟩
     ⟨"time", .Equal, "0", false⟩).2.2.2.2.1 rfl (by decide),
   (spec_c3_field_resolution ⟨"m", "p", "u", 7⟩
     ⟨"method", .Equal, "0", false⟩).2.1 rfl⟩

/-- C2 counterexample: for the empty policy list the claim fails — the `Add`
arm hands the empty alternative set to `Restriction::new`, whose construction
fails, so `Add([]).generate()` produces no restriction at all. -/
theorem spec_c2_counterexample :
    okB (DefRules.generate (.Add [])) = false :=
  rfl

/-- C2 (amended): for every policy list `rs` whose generation succeeds —
equivalently, whenever every sub-policy generates and the concatenated
alternative set is non-empty — `Add(rs).generate()` produces exactly one
restriction whose alternatives are the concatenation, in policy order, of the
alternatives of every restriction generated by each policy in `rs`. -/
theorem spec_c2_add_flattens (rs : List DefRules)
    (gens : List (List Restriction))
    (h : rs.mapM DefRules.generate = .ok gens)
    (hne : (gens.map
      (fun g => (g.map Restriction.alternatives).flatten)).flatten ≠ []) :
    DefRules.generate (.Add rs) = .ok
      [⟨(gens.map
        (fun g => (g.map Restriction.alternatives).flatten)).flatten⟩] := by
  have hga := generateAlts_mapM rs gens h
  simp only [DefRules.generate, hga, Restriction.new]
  rw [if_neg (by simpa [List.isEmpty_iff] using hne)]

/-- C2 witness: the amended theorem applied to `[ReadOnly, Pay]`. -/
theorem spec_c2_witness :
    [DefRules.ReadOnly, DefRules.Pay].mapM DefRules.generate = .ok
      [[⟨[alternative "method" .BeginsWith "Get",
          alternative "method" .BeginsWith "List"]⟩],
       [⟨[alternative "method" .Equal "pay"]⟩]]
    ∧ (([[(⟨[alternative "method" .BeginsWith "Get",
             alternative "method" .BeginsWith "List"]⟩ : Restriction)],
         [(⟨[alternative "method" .Equal "pay"]⟩ : Restriction)]].map
        (fun g => (g.map Restriction.alternatives).flatten)).flatten ≠ [])
    ∧ DefRules.generate (.Add [.ReadOnly, .Pay]) = .ok
      [⟨[alternative "method" .BeginsWith "Get",
         alternative "method" .BeginsWith "List",
         alternative "method" .Equal "pay"]⟩] :=
  ⟨rfl, by decide, spec_c2_add_flattens [.ReadOnly, .Pay] _ rfl (by decide)⟩

/-- C1: attenuation monotonicity of carving — for every rune `r` and
non-empty policy list `P` for which `carve` succeeds, every context whose
restrictions are met by the rune decoded from the carved encoding also has
its restrictions met by `r`. -/
theorem spec_c1_carve_attenuation (r : Rune) (P : List DefRules)
    (hP : P ≠ []) (s : String) (hs : RuneFactory.carve r P = .ok s)
    (r' : Rune) (hd : from_base64 s = .ok r') (ctx : Context)
    (hmet : r'.are_restrictions_met ctx = .ok ()) :
    r.are_restrictions_met ctx = .ok () := by
  cases hg : carveRestrictions P with
  | error e => simp [RuneFactory.carve, hg] at hs
  | ok gen =>
    simp only [RuneFactory.carve, hg, Except.ok.injEq] at hs
    subst hs
    rw [from_base64_to_base64] at hd
    obtain rfl : gen.foldl Rune.add_restriction r = r' := by simpa using hd
    have hres := (foldl_add_restriction gen r).1
    unfold Rune.are_restrictions_met at hmet ⊢
    rw [hres] at hmet
    exact checkAll_append_ok ctx r.restrictions gen hmet

/-- C1 witness: carving the `Pay` policy onto an unrestricted rune; the
context with method `"pay"` is authorized by the decoded carved rune and by
the origin. -/
theorem spec_c1_witness :
    ([DefRules.Pay] ≠ ([] : List DefRules))
    ∧ RuneFactory.carve ⟨[], []⟩ [DefRules.Pay] = .ok
        (Rune.to_base64 ⟨[], [⟨[alternative "method" .Equal "pay"]⟩]⟩)
    ∧ from_base64 (Rune.to_base64 ⟨[], [⟨[alternative "method" .Equal "pay"]⟩]⟩)
        = .ok ⟨[], [⟨[alternative "method" .Equal "pay"]⟩]⟩
    ∧ Rune.are_restrictions_met ⟨[], [⟨[alternative "method" .Equal "pay"]⟩]⟩
        ⟨"pay", "", "", 0⟩ = .ok ()
    ∧ Rune.are_restrictions_met ⟨[], []⟩ ⟨"pay", "", "", 0⟩ = .ok () :=
  ⟨List.cons_ne_nil _ _, rfl, from_base64_to_base64 _, rfl,
   spec_c1_carve_attenuation ⟨[], []⟩ [DefRules.Pay] (List.cons_ne_nil _ _)
     (Rune.to_base64 ⟨[], [⟨[alternative "method" .Equal "pay"]⟩]⟩) rfl
     ⟨[], [⟨[alternative "method" .Equal "pay"]⟩]⟩ (from_base64_to_base64 _)
     ⟨"pay", "", "", 0⟩ rfl⟩
